import Mathlib

/-!
Verification of the royalbird-be backend's counter, analytics and slug logic,
shallowly embedded from the TypeScript sources.

Conventions of the embedding:
* mongoose documents become Lean structures; the relevant fields only;
* JS numbers holding integer counters become `Int` (all arithmetic on them in
  the source is integer arithmetic);
* JS floating point arithmetic in the analytics / tag-cloud formulas is
  modelled exactly over `Rat`; `Number.prototype.toFixed(1)`/`parseFloat` and
  `Math.round` are modelled as exact rounding to the nearest tenth
  (resp. integer), ties towards positive infinity, which is their behaviour
  away from representation-boundary ties;
* async methods that mutate a document become pure state-passing functions.
-/

namespace RoyalBird

/-! ## Like / Unlike (src/models/comic.model.ts, methods like / unlike / hasLiked)

State of the engagement-tracking fields of a likeable document:
`likes` and `likedBy`.  `this.likedBy.push(userId)` appends at the end,
`splice(indexOf u, 1)` removes the first occurrence. -/

structure LikeState where
  likes : Int
  likedBy : List String
  deriving Repr, DecidableEq

/-- Model of `ComicSchema.methods.like`: if `!this.likedBy.includes(userId)` push the
user, increment `likes` and return `true`; otherwise return `false` leaving
the document unchanged. -/
def like (userId : String) (s : LikeState) : Bool × LikeState :=
  if userId ∈ s.likedBy then
    (false, s)
  else
    (true, { likes := s.likes + 1, likedBy := s.likedBy ++ [userId] })

/-- Model of `ComicSchema.methods.unlike`: if `indexOf(userId) > -1` splice out that
first occurrence, decrement `likes` and return `true`; otherwise return
`false` leaving the document unchanged. -/
def unlike (userId : String) (s : LikeState) : Bool × LikeState :=
  if userId ∈ s.likedBy then
    (true, { likes := s.likes - 1, likedBy := s.likedBy.erase userId })
  else
    (false, s)

/-- Model of `ComicSchema.methods.hasLiked`: pure membership lookup. -/
def hasLiked (userId : String) (s : LikeState) : Bool :=
  userId ∈ s.likedBy

/-- One call against the like/unlike API. -/
inductive LikeOp where
  | like (userId : String)
  | unlike (userId : String)
  deriving Repr, DecidableEq

/-- State reached by a likeable document after a sequence of calls. -/
def runLikeOps (ops : List LikeOp) (s : LikeState) : LikeState :=
  ops.foldl (fun st op =>
    match op with
    | .like u => (like u st).2
    | .unlike u => (unlike u st).2) s

/-- A valid engagement state: the counter matches the list and no user is
recorded twice. -/
def ValidLike (s : LikeState) : Prop :=
  s.likes = (s.likedBy.length : Int) ∧ s.likedBy.Nodup

instance : DecidablePred ValidLike := fun s => by
  unfold ValidLike; infer_instance

/-! ## Trend metric (src/unnamed/part_000, AdminStatsController)

`getComparativeStats` and `getSubscriberGrowthStats` both compute
`previous > 0 ? parseFloat(((current - previous) / previous * 100).toFixed(1))
             : (current > 0 ? 100 : 0)`.
`toFixed(1)`/`parseFloat` rounds to the nearest tenth. -/

/-- Rounding to one decimal place, the model of
`parseFloat(x.toFixed(1))` (nearest tenth, ties towards +∞). -/
def round1 (q : ℚ) : ℚ :=
  (⌊q * 10 + 1 / 2⌋ : ℚ) / 10

/-- The period-over-period trend percentage computed by
`AdminStatsController.getComparativeStats` (and, identically, by
`getSubscriberGrowthStats`) from the current-window and previous-window
document counts. -/
def trendMetric (current previous : Int) : ℚ :=
  if previous > 0 then
    round1 (((current : ℚ) - (previous : ℚ)) / (previous : ℚ) * 100)
  else if current > 0 then 100 else 0

/-! ## Analytics overview window validation (src/unnamed/part_000, getOverview)

`@QueryParam('days') days: number = 30` defaults a missing parameter to 30;
the handler throws `BadRequestError('Date range cannot exceed 365 days')`
before any statistics query when `days > 365`. -/

/-- Outcome of the `days`-window validation at the top of
`AdminStatsController.getOverview`: `Except.error` models the
`BadRequestError` (HTTP 400) thrown before any statistics are computed,
`Except.ok d` the window actually used by the rest of the handler. -/
def getOverviewWindow (days : Option Int) : Except String Int :=
  let d := days.getD 30
  if d > 365 then Except.error "Date range cannot exceed 365 days"
  else Except.ok d

/-! ## Tag cloud (src/controllers/comic.controller.ts, TagController.getTagCloud)

The store query returns the tags with `comicCount >= minCount` sorted by
descending `comicCount`; the controller then computes
`maxCount = tags[0]?.comicCount || 1`, `divisor = maxCount - minCount > 0 ?
maxCount - minCount : 1` and for each tag
`Math.round(minFontSize + ((comicCount - minCount) / divisor) *
(maxFontSize - minFontSize))` with `minFontSize = 12`, `maxFontSize = 32`.
The embedding takes the already-fetched list as input; the query's
postconditions (filtering and descending sort) appear as hypotheses. -/

structure TagInfo where
  name : String
  comicCount : Int
  deriving Repr, DecidableEq

/-- Model of `Math.round`: nearest integer, ties towards +∞. -/
def jsRound (q : ℚ) : Int :=
  ⌊q + 1 / 2⌋

/-- Model of `const divisor = maxCount - minCount > 0 ? (maxCount - minCount) : 1`. -/
def tagDivisor (maxCount minCount : Int) : Int :=
  if maxCount - minCount > 0 then maxCount - minCount else 1

/-- The per-tag font size computed inside `getTagCloud`'s `map`, with
`minFontSize = 12` and `maxFontSize = 32` inlined as in the source. -/
def tagFontSize (minCount maxCount count : Int) : Int :=
  jsRound (12 + (((count : ℚ) - (minCount : ℚ)) /
    (tagDivisor maxCount minCount : ℚ)) * (32 - 12))

/-- Model of `const maxCount = tags[0]?.comicCount || 1`: the head's count, with the
JS falsy-coalescing `|| 1` applying when the list is empty or the head's
count is `0`. -/
def tagCloudMaxCount : List TagInfo → Int
  | [] => 1
  | t :: _ => if t.comicCount = 0 then 1 else t.comicCount

/-- Model of `TagController.getTagCloud`'s font-size map: pairs every fetched tag
with its computed `fontSize`. -/
def getTagCloud (minCount : Int) (tags : List TagInfo) : List (TagInfo × Int) :=
  tags.map (fun t => (t, tagFontSize minCount (tagCloudMaxCount tags) t.comicCount))

/-! ## Login lockout (src/models/user.model.ts and UserController.login)

The lockout-relevant fields of a user document; timestamps are integer
epoch milliseconds (`Date.now()`), `lockUntil` is absent (`$unset`) or a
timestamp. -/

structure AuthState where
  loginAttempts : Int
  lockUntil : Option Int
  deriving Repr, DecidableEq

/-- Model of `UserSchema.methods.isLocked`:
`!!(this.lockUntil && this.lockUntil > new Date())`. -/
def isLocked (now : Int) (s : AuthState) : Bool :=
  match s.lockUntil with
  | some t => decide (now < t)
  | none => false

/-- Model of `UserSchema.methods.resetLoginAttempts`:
`$set loginAttempts: 0, $unset lockUntil`. -/
def resetLoginAttempts (s : AuthState) : AuthState :=
  { s with loginAttempts := 0, lockUntil := none }

/-- Model of `UserSchema.methods.incrementLoginAttempts`: if a lock exists and has
expired, reset; otherwise `$inc loginAttempts` and, when the new count
reaches 5, `$set lockUntil = Date.now() + 15 * 60 * 1000`. -/
def incrementLoginAttempts (now : Int) (s : AuthState) : AuthState :=
  if (match s.lockUntil with | some t => decide (t < now) | none => false) then
    resetLoginAttempts s
  else
    { s with
      loginAttempts := s.loginAttempts + 1,
      lockUntil :=
        if s.loginAttempts + 1 ≥ 5 then some (now + 15 * 60 * 1000)
        else s.lockUntil }

/-- The outcome of `UserController.login` for a found user, by the error
thrown (or success). -/
inductive LoginResult where
  | lockedOut
  | invalidCredentials
  | emailUnverified
  | success
  deriving Repr, DecidableEq

/-- Model of `UserController.login` for a user that was found: forbidden while
locked (checked before the password), `incrementLoginAttempts` plus a bad
request on a wrong password, forbidden when the email is unverified, and
`resetLoginAttempts` on success.  `pwValid` stands for the result of the
bcrypt `comparePassword`, `emailVerified` for the document field. -/
def login (now : Int) (s : AuthState) (pwValid emailVerified : Bool) :
    LoginResult × AuthState :=
  if isLocked now s then
    (.lockedOut, s)
  else if ¬ pwValid then
    (.invalidCredentials, incrementLoginAttempts now s)
  else if ¬ emailVerified then
    (.emailUnverified, s)
  else
    (.success, resetLoginAttempts s)

/-- The state of a fresh account after `k` consecutive failed password
checks (wrong password, verified email) all at time `now`. -/
def failStreak (now : Int) (k : Nat) : AuthState :=
  (fun s => (login now s false true).2)^[k] { loginAttempts := 0, lockUntil := none }

/-! ## Genre/Tag comicCount hooks (src/models/comic.model.ts hooks,
src/models/tag.model.ts and genre.model.ts statics)

A small world holding the comic documents and the per-id `comicCount`
counters of the Genre and Tag collections.  `incrementCount`/
`decrementCount` are `findByIdAndUpdate(id, { $inc: { comicCount: ±1 } })`:
a no-op when the id is absent.  `ComicSchema.post('save')` runs after every
`save()` and bumps every referenced genre and tag; `pre('findOneAndDelete')`
decrements them before the delete. -/

structure ComicDoc where
  id : Int
  genres : List String
  tags : List String
  views : Int
  deleted : Bool
  deriving Repr, DecidableEq

structure CountersWorld where
  comics : List ComicDoc
  genreCounts : List (String × Int)
  tagCounts : List (String × Int)
  deriving Repr, DecidableEq

/-- Model of `findByIdAndUpdate(id, { $inc: { comicCount: delta } })` on an
association list: bump the first matching binding, no-op when absent. -/
def bumpCount (key : String) (delta : Int) : List (String × Int) → List (String × Int)
  | [] => []
  | (k, v) :: rest =>
    if k = key then (k, v + delta) :: rest else (k, v) :: bumpCount key delta rest

/-- Model of `ComicSchema.post('save')`: increment `comicCount` of every genre and
every tag referenced by the saved document. -/
def postSaveHook (doc : ComicDoc) (w : CountersWorld) : CountersWorld :=
  { w with
    genreCounts := doc.genres.foldl (fun l g => bumpCount g 1 l) w.genreCounts,
    tagCounts := doc.tags.foldl (fun l t => bumpCount t 1 l) w.tagCounts }

/-- Model of `doc.save()`: persist the document (insert or replace by id), then run
the `post('save')` hook. -/
def saveComic (doc : ComicDoc) (w : CountersWorld) : CountersWorld :=
  let comics :=
    if w.comics.any (fun c => c.id = doc.id) then
      w.comics.map (fun c => if c.id = doc.id then doc else c)
    else
      w.comics ++ [doc]
  postSaveHook doc { w with comics := comics }

/-- Creating a comic is a `save()` of a new document. -/
def createComic (doc : ComicDoc) (w : CountersWorld) : CountersWorld :=
  saveComic doc w

/-- Model of `ComicSchema.methods.incrementViews`: `this.views += 1; await this.save()`. -/
def incrementViews (id : Int) (w : CountersWorld) : CountersWorld :=
  match w.comics.find? (fun c => c.id = id) with
  | none => w
  | some c => saveComic { c with views := c.views + 1 } w

/-- Model of `ComicSchema.methods.softDelete`: `this.deletedAt = new Date(); await
this.save()` — note this is a `save()`, so the post-save hook runs. -/
def softDeleteComic (id : Int) (w : CountersWorld) : CountersWorld :=
  match w.comics.find? (fun c => c.id = id) with
  | none => w
  | some c => saveComic { c with deleted := true } w

/-- Model of `Comic.findOneAndDelete({_id: id})`: the `pre('findOneAndDelete')` hook
decrements the counters of the referenced genres and tags, then the
document is removed. -/
def findOneAndDeleteComic (id : Int) (w : CountersWorld) : CountersWorld :=
  match w.comics.find? (fun c => c.id = id) with
  | none => w
  | some c =>
    let w' :=
      { w with
        genreCounts := c.genres.foldl (fun l g => bumpCount g (-1) l) w.genreCounts,
        tagCounts := c.tags.foldl (fun l t => bumpCount t (-1) l) w.tagCounts }
    { w' with comics := w'.comics.filter (fun c => ¬ c.id = id) }

/-- The stored `comicCount` of a tag id. -/
def tagCountOf (key : String) (w : CountersWorld) : Option Int :=
  (w.tagCounts.find? (fun p => p.1 = key)).map (fun p => p.2)

/-- The number of non-deleted comics referencing a tag — what the
denormalized counter is supposed to equal. -/
def referencingTagCount (key : String) (w : CountersWorld) : Nat :=
  (w.comics.filter (fun c => ¬ c.deleted ∧ key ∈ c.tags)).length

/-! ## Slug generation (src/index.ts, generateUniqueSlug)

The transform chain is `title.toLowerCase()`, then `.replace` of the
regexes `[^\w\s-]` (with the empty string), `\s+` (with a hyphen) and
`--+` (with a hyphen), then `.trim()`; the uniqueness loop probes the BlogPost
collection and, while the candidate collides, tries `base-1`, `base-2`, …
The store is modelled as the list of slugs already present in the
collection.  ASCII is modelled for the character classes (`\w`, `\s`,
`toLowerCase`), matching their JS meaning on ASCII input. -/

/-- JS `\w`: ASCII letters, digits and underscore. -/
def isWordChar (c : Char) : Bool :=
  c.isAlpha || c.isDigit || c = '_'

/-- JS `\s` (ASCII part): space, tab, newline, vertical tab, form feed,
carriage return. -/
def isSpaceChar (c : Char) : Bool :=
  c = ' ' || c = '\t' || c = '\n' || c = '\x0b' || c = '\x0c' || c = '\r'

/-- Model of `replace(/X+/g, repl)` for a single-character class `X`: every maximal
run of characters satisfying `p` becomes the single character `repl`.  The
boolean flag records whether the previous character was part of a run. -/
def collapseRunsAux (p : Char → Bool) (repl : Char) : Bool → List Char → List Char
  | _, [] => []
  | inRun, c :: rest =>
    if p c then
      if inRun then collapseRunsAux p repl true rest
      else repl :: collapseRunsAux p repl true rest
    else
      c :: collapseRunsAux p repl false rest

def collapseRuns (p : Char → Bool) (repl : Char) (l : List Char) : List Char :=
  collapseRunsAux p repl false l

/-- JS `String.prototype.trim` on the character list: drop whitespace from
both ends. -/
def jsTrim (l : List Char) : List Char :=
  ((l.dropWhile isSpaceChar).reverse.dropWhile isSpaceChar).reverse

/-- The `baseSlug` transform of `generateUniqueSlug`: lowercase, strip
characters that are not word characters, whitespace or hyphens, collapse
whitespace runs to single hyphens, collapse repeated hyphens, trim.
The `--+` replacement rewrites runs of two or more hyphens to one; a lone
hyphen maps to itself, so collapsing every hyphen run is the same function. -/
def slugify (title : String) : String :=
  String.mk (jsTrim (collapseRuns (fun c => c = '-') '-'
    (collapseRuns isSpaceChar '-'
      ((title.data.map Char.toLower).filter
        (fun c => isWordChar c || isSpaceChar c || c = '-')))))

/-- Decimal rendering of the loop counter, the model of the JS template
interpolation of a nonnegative integer. -/
def natDigitsStr (n : Nat) : String :=
  if n = 0 then "0" else String.mk (((Nat.digits 10 n).map Nat.digitChar).reverse)

/-- The `k`-th candidate slug tried by the collision loop: the base slug
itself first, then `base-1`, `base-2`, … -/
def slugCand (base : String) : Nat → String
  | 0 => base
  | Nat.succ k => base ++ "-" ++ natDigitsStr (k + 1)

theorem digitChar_injOn_lt10 :
    ∀ a, a < 10 → ∀ b, b < 10 → Nat.digitChar a = Nat.digitChar b → a = b := by
  decide

theorem map_digitChar_inj :
    ∀ l₁ l₂ : List Nat, (∀ x ∈ l₁, x < 10) → (∀ x ∈ l₂, x < 10) →
      l₁.map Nat.digitChar = l₂.map Nat.digitChar → l₁ = l₂ := by
  intro l₁
  induction l₁ with
  | nil =>
    intro l₂ _ _ h
    cases l₂ with
    | nil => rfl
    | cons b bs => simp at h
  | cons a as ih =>
    intro l₂ h₁ h₂ h
    cases l₂ with
    | nil => simp at h
    | cons b bs =>
      simp only [List.map_cons, List.cons.injEq] at h
      have ha : a = b :=
        digitChar_injOn_lt10 a (h₁ a (by simp)) b (h₂ b (by simp)) h.1
      have hs : as = bs :=
        ih bs (fun x hx => h₁ x (by simp [hx])) (fun x hx => h₂ x (by simp [hx])) h.2
      rw [ha, hs]

theorem natDigitsStr_pos_inj (i j : Nat)
    (h : natDigitsStr (i + 1) = natDigitsStr (j + 1)) : i = j := by
  have h1 : String.mk (((Nat.digits 10 (i + 1)).map Nat.digitChar).reverse) =
      String.mk (((Nat.digits 10 (j + 1)).map Nat.digitChar).reverse) := by
    simpa [natDigitsStr] using h
  have h2 : ((Nat.digits 10 (i + 1)).map Nat.digitChar).reverse =
      ((Nat.digits 10 (j + 1)).map Nat.digitChar).reverse :=
    congrArg String.data h1
  have h3 := List.reverse_injective h2
  have h4 : Nat.digits 10 (i + 1) = Nat.digits 10 (j + 1) :=
    map_digitChar_inj _ _
      (fun x hx => Nat.digits_lt_base (by norm_num) hx)
      (fun x hx => Nat.digits_lt_base (by norm_num) hx) h3
  have h5 : i + 1 = j + 1 := by
    have h6 := congrArg (Nat.ofDigits 10) h4
    rwa [Nat.ofDigits_digits, Nat.ofDigits_digits] at h6
  omega

theorem natDigitsStr_pos_ne_empty (k : Nat) : (natDigitsStr (k + 1)).data ≠ [] := by
  simp [natDigitsStr]

theorem slugCand_injective (base : String) : Function.Injective (slugCand base) := by
  have hdash : ("-" : String).data = ['-'] := rfl
  intro i j h
  match i, j with
  | 0, 0 => rfl
  | 0, Nat.succ j =>
    exfalso
    have hlen := congrArg (fun s => s.data.length) h
    simp only [slugCand, String.data_append, List.length_append, hdash,
      List.length_cons, List.length_nil] at hlen
    have hpos : 0 < (natDigitsStr (j + 1)).data.length :=
      List.length_pos.mpr (natDigitsStr_pos_ne_empty j)
    omega
  | Nat.succ i, 0 =>
    exfalso
    have hlen := congrArg (fun s => s.data.length) h
    simp only [slugCand, String.data_append, List.length_append, hdash,
      List.length_cons, List.length_nil] at hlen
    have hpos : 0 < (natDigitsStr (i + 1)).data.length :=
      List.length_pos.mpr (natDigitsStr_pos_ne_empty i)
    omega
  | Nat.succ i, Nat.succ j =>
    have hdata := congrArg String.data h
    simp only [slugCand, String.data_append, List.append_assoc] at hdata
    have h1 : (natDigitsStr (i + 1)).data = (natDigitsStr (j + 1)).data :=
      List.append_cancel_left (List.append_cancel_left hdata)
    have h2 : natDigitsStr (i + 1) = natDigitsStr (j + 1) := String.ext h1
    have := natDigitsStr_pos_inj i j h2
    omega

theorem exists_free_slugCand (store : List String) (base : String) :
    ∃ k, slugCand base k ∉ store := by
  by_contra hall
  push_neg at hall
  have hinj : Set.InjOn (slugCand base) ↑(Finset.range (store.toFinset.card + 1)) :=
    fun a _ b _ hab => slugCand_injective base hab
  have hmaps : ∀ a ∈ Finset.range (store.toFinset.card + 1),
      slugCand base a ∈ store.toFinset := by
    intro a _
    exact List.mem_toFinset.mpr (hall a)
  have := Finset.card_le_card_of_injOn (slugCand base) hmaps hinj
  simp at this

/-- Model of `generateUniqueSlug` (src/index.ts): compute the base slug, then probe
the store with `base`, `base-1`, `base-2`, … and return the first candidate
not present. -/
def generateUniqueSlug (store : List String) (title : String) : String :=
  slugCand (slugify title)
    (Nat.find (exists_free_slugCand store (slugify title)))

/-! ## Theorems -/

theorem like_preserves_valid (u : String) (s : LikeState) (hv : ValidLike s) :
    ValidLike (like u s).2 := by
  unfold like
  by_cases h : u ∈ s.likedBy
  · simpa [h] using hv
  · simp only [h, if_false]
    constructor
    · simp only [List.length_append, List.length_cons, List.length_nil]
      have := hv.1
      push_cast
      omega
    · refine List.Nodup.append hv.2 (by simp) ?_
      intro a ha hb
      simp only [List.mem_singleton] at hb
      subst hb
      exact h ha

theorem unlike_preserves_valid (u : String) (s : LikeState) (hv : ValidLike s) :
    ValidLike (unlike u s).2 := by
  unfold unlike
  by_cases h : u ∈ s.likedBy
  · simp only [h, if_true]
    constructor
    · show s.likes - 1 = ((s.likedBy.erase u).length : Int)
      have hpos : 0 < s.likedBy.length := List.length_pos_of_mem h
      rw [List.length_erase_of_mem h]
      have := hv.1
      omega
    · exact hv.2.erase u
  · simpa [h] using hv

theorem runLikeOps_preserves_valid (ops : List LikeOp) (s : LikeState)
    (hv : ValidLike s) : ValidLike (runLikeOps ops s) := by
  induction ops generalizing s with
  | nil => exact hv
  | cons op rest ih =>
    have hstep : ValidLike (match op with
        | .like u => (like u s).2
        | .unlike u => (unlike u s).2) := by
      cases op with
      | like u => exact like_preserves_valid u s hv
      | unlike u => exact unlike_preserves_valid u s hv
    simpa [runLikeOps, List.foldl_cons] using ih _ hstep

/-- C1: for every likeable entity starting from a valid state (`likes`
equal to the number of entries in `likedBy`, `likedBy` duplicate-free),
after any finite sequence of `like`/`unlike` calls,
`likes == |likedBy|` holds. -/
theorem likes_eq_likedBy_card (ops : List LikeOp) (s : LikeState)
    (hv : ValidLike s) :
    (runLikeOps ops s).likes = ((runLikeOps ops s).likedBy.length : Int) :=
  (runLikeOps_preserves_valid ops s hv).1

theorem likes_eq_likedBy_card_witness :
    ValidLike { likes := 0, likedBy := [] } ∧
      (runLikeOps [.like "a", .like "a", .unlike "a", .unlike "a", .like "b"]
        { likes := 0, likedBy := [] }).likes =
      ((runLikeOps [.like "a", .like "a", .unlike "a", .unlike "a", .like "b"]
        { likes := 0, likedBy := [] }).likedBy.length : Int) :=
  ⟨by decide,
   likes_eq_likedBy_card [.like "a", .like "a", .unlike "a", .unlike "a", .like "b"]
     { likes := 0, likedBy := [] } (by decide)⟩

/-- C3: `like(entityId, userId)` returns `true` and appends `userId` to
`likedBy` (incrementing `likes` by 1) exactly when `userId` was not already
in `likedBy`; when present it returns `false` and leaves the state
unchanged; calling `like` twice with the same user id changes state once. -/
theorem like_contract (s : LikeState) (u : String) :
    ((like u s).1 = true ↔ u ∉ s.likedBy)
    ∧ (u ∉ s.likedBy →
        (like u s).2 = { likes := s.likes + 1, likedBy := s.likedBy ++ [u] })
    ∧ (u ∈ s.likedBy → (like u s).1 = false ∧ (like u s).2 = s)
    ∧ (like u (like u s).2).1 = false
    ∧ (like u (like u s).2).2 = (like u s).2 := by
  by_cases h : u ∈ s.likedBy <;> simp [like, h]

theorem like_contract_witness :
    (like "b" { likes := 1, likedBy := ["a"] }).2 =
      { likes := 2, likedBy := ["a", "b"] }
    ∧ (like "a" { likes := 1, likedBy := ["a"] }).1 = false :=
  ⟨by
    have := (like_contract { likes := 1, likedBy := ["a"] } "b").2.1 (by decide)
    simpa using this,
   ((like_contract { likes := 1, likedBy := ["a"] } "a").2.2.1 (by decide)).1⟩

/-- C4: `unlike` for a user not present in `likedBy` is a no-op returning
`false`; for every sequence of calls from a valid state the `likes` counter
never goes negative and no single user is ever counted more than once. -/
theorem unlike_noop_and_counter_safe (s : LikeState) (u : String)
    (ops : List LikeOp) (hv : ValidLike s) :
    (u ∉ s.likedBy → unlike u s = (false, s))
    ∧ 0 ≤ (runLikeOps ops s).likes
    ∧ ∀ v, (runLikeOps ops s).likedBy.count v ≤ 1 := by
  have hval := runLikeOps_preserves_valid ops s hv
  refine ⟨fun h => by simp [unlike, h], ?_, ?_⟩
  · rw [hval.1]
    exact Int.natCast_nonneg _
  · exact fun v => List.nodup_iff_count_le_one.mp hval.2 v

theorem unlike_noop_and_counter_safe_witness :
    ValidLike { likes := 1, likedBy := ["a"] } ∧
      unlike "z" { likes := 1, likedBy := ["a"] } =
        (false, { likes := 1, likedBy := ["a"] })
    ∧ 0 ≤ (runLikeOps [.unlike "a", .unlike "a"]
        { likes := 1, likedBy := ["a"] }).likes :=
  ⟨by decide,
   (unlike_noop_and_counter_safe { likes := 1, likedBy := ["a"] } "z"
     [.unlike "a", .unlike "a"] (by decide)).1 (by decide),
   (unlike_noop_and_counter_safe { likes := 1, likedBy := ["a"] } "z"
     [.unlike "a", .unlike "a"] (by decide)).2.1⟩

theorem round1_close (q : ℚ) : |round1 q - q| ≤ 1 / 20 := by
  unfold round1
  have h1 : ((⌊q * 10 + 1 / 2⌋ : Int) : ℚ) ≤ q * 10 + 1 / 2 := Int.floor_le _
  have h2 : q * 10 + 1 / 2 < (⌊q * 10 + 1 / 2⌋ : Int) + 1 := Int.lt_floor_add_one _
  rw [abs_le]
  constructor <;> linarith

theorem round1_tenth (q : ℚ) : ∃ z : Int, round1 q = (z : ℚ) / 10 :=
  ⟨⌊q * 10 + 1 / 2⌋, rfl⟩

theorem round1_eq_of (q : ℚ) (z : Int) (h1 : (z : ℚ) ≤ q * 10 + 1 / 2)
    (h2 : q * 10 + 1 / 2 < (z : ℚ) + 1) : round1 q = (z : ℚ) / 10 := by
  unfold round1
  rw [show ⌊q * 10 + 1 / 2⌋ = z from by
    rw [Int.floor_eq_iff]
    exact ⟨h1, by linarith⟩]

theorem trendMetric_pos (current previous : Int) (hp : 0 < previous) :
    trendMetric current previous =
      round1 (((current : ℚ) - (previous : ℚ)) / (previous : ℚ) * 100) := by
  unfold trendMetric
  rw [if_pos hp]

theorem trendMetric_ten_five : trendMetric 10 5 = 100 := by
  rw [trendMetric_pos 10 5 (by norm_num)]
  rw [show (((10 : Int) : ℚ) - ((5 : Int) : ℚ)) / ((5 : Int) : ℚ) * 100 = 100 by
    norm_num]
  rw [round1_eq_of 100 1000 (by norm_num) (by norm_num)]
  norm_num

theorem trendMetric_five_ten : trendMetric 5 10 = -50 := by
  rw [trendMetric_pos 5 10 (by norm_num)]
  rw [show (((5 : Int) : ℚ) - ((10 : Int) : ℚ)) / ((10 : Int) : ℚ) * 100 = -50 by
    norm_num]
  rw [round1_eq_of (-50) (-500) (by norm_num) (by norm_num)]
  norm_num

/-- C2 counterexample: at `current = 1`, `previous = 3` the computed trend
is the rounded `-66.7`, not the exact `(current - previous) / previous *
100 = -200/3`, so the claim's exact-equality formula fails. -/
theorem trendMetric_not_exact_ratio :
    trendMetric 1 3 ≠ ((1 : ℚ) - 3) / 3 * 100 := by
  have h : trendMetric 1 3 = -667 / 10 := by
    rw [trendMetric_pos 1 3 (by norm_num)]
    rw [show (((1 : Int) : ℚ) - ((3 : Int) : ℚ)) / ((3 : Int) : ℚ) * 100 = -200 / 3 by
      norm_num]
    rw [round1_eq_of (-200 / 3) (-667) (by norm_num) (by norm_num)]
    norm_num
  rw [h]
  norm_num

/-- C2 amended: when `previous > 0` the trend equals
`(current - previous) / previous * 100` rounded to one decimal place (an
integer multiple of `1/10`, within `1/20` of the exact ratio); when
`previous == 0` it is `100` if `current > 0` and `0` otherwise; in
particular `(0,0) ↦ 0`, `(5,0) ↦ 100`, `(10,5) ↦ 100`, `(5,10) ↦ -50`. -/
theorem trendMetric_spec (current previous : Int) (hp : 0 < previous) :
    (∃ z : Int, trendMetric current previous = (z : ℚ) / 10)
    ∧ |trendMetric current previous -
        ((current : ℚ) - (previous : ℚ)) / (previous : ℚ) * 100| ≤ 1 / 20
    ∧ trendMetric 0 0 = 0 ∧ trendMetric 5 0 = 100
    ∧ trendMetric 10 5 = 100 ∧ trendMetric 5 10 = -50 := by
  refine ⟨?_, ?_, rfl, rfl, trendMetric_ten_five, trendMetric_five_ten⟩
  · rw [trendMetric_pos current previous hp]
    exact round1_tenth _
  · rw [trendMetric_pos current previous hp]
    exact round1_close _

theorem trendMetric_spec_witness :
    (0 : Int) < 3 ∧ ∃ z : Int, trendMetric 1 3 = (z : ℚ) / 10 :=
  ⟨by decide, (trendMetric_spec 1 3 (by decide)).1⟩

theorem tagDivisor_eq_max (maxCount minCount : Int) :
    tagDivisor maxCount minCount = max (maxCount - minCount) 1 := by
  unfold tagDivisor
  split <;> omega

theorem jsRound_eq_of (q : ℚ) (z : Int) (h1 : (z : ℚ) ≤ q + 1 / 2)
    (h2 : q + 1 / 2 < (z : ℚ) + 1) : jsRound q = z := by
  unfold jsRound
  rw [Int.floor_eq_iff]
  exact ⟨h1, by linarith⟩

theorem tagFontSize_4_1_4 : tagFontSize 1 4 4 = 32 := by
  unfold tagFontSize
  rw [show (12 + ((((4 : Int) : ℚ) - ((1 : Int) : ℚ)) /
      ((tagDivisor 4 1 : Int) : ℚ)) * (32 - 12)) = 32 by
    rw [tagDivisor_eq_max]
    norm_num]
  exact jsRound_eq_of 32 32 (by norm_num) (by norm_num)

theorem tagFontSize_4_1_2 : tagFontSize 1 4 2 = 19 := by
  unfold tagFontSize
  rw [show (12 + ((((2 : Int) : ℚ) - ((1 : Int) : ℚ)) /
      ((tagDivisor 4 1 : Int) : ℚ)) * (32 - 12)) = 56 / 3 by
    rw [tagDivisor_eq_max]
    norm_num]
  exact jsRound_eq_of (56 / 3) 19 (by norm_num) (by norm_num)

theorem tagFontSize_4_1_1 : tagFontSize 1 4 1 = 12 := by
  unfold tagFontSize
  rw [show (12 + ((((1 : Int) : ℚ) - ((1 : Int) : ℚ)) /
      ((tagDivisor 4 1 : Int) : ℚ)) * (32 - 12)) = 12 by
    rw [tagDivisor_eq_max]
    norm_num]
  exact jsRound_eq_of 12 12 (by norm_num) (by norm_num)

/-- C7 counterexample: with `minCount = 1` and counts `[4, 2, 1]` the
result's font size for the middle tag is the rounded value `19`, while the
claim's formula gives `12 + ((2 - 1) / max (4 - 1) 1) * (32 - 12) = 56/3`,
so the claim's exact-equality formula fails. -/
theorem tagCloud_fontSize_not_exact :
    (getTagCloud 1
        [{ name := "a", comicCount := 4 }, { name := "b", comicCount := 2 },
         { name := "c", comicCount := 1 }]).map Prod.snd = [32, 19, 12]
    ∧ ((19 : ℚ) ≠ 12 + (((2 : ℚ) - 1) / ((max ((4 : Int) - 1) 1 : Int) : ℚ)) *
        (32 - 12)) := by
  constructor
  · simp only [getTagCloud, tagCloudMaxCount, List.map_map, List.map_cons,
      List.map_nil, Function.comp]
    norm_num [tagFontSize_4_1_4, tagFontSize_4_1_2, tagFontSize_4_1_1]
  · rw [show (max ((4 : Int) - 1) 1 : Int) = 3 by norm_num]
    norm_num

/-- C7 amended: for a nonempty fetched set (head-dominant, as returned by
the descending sort) with caller floor `minCount ≥ 1`, `maxCount` is the
head's count (the maximum present), the divisor is
`max (maxCount - minCount) 1` and is positive (no division by zero even
when all counts are equal), and every tag's reported font size is
`Math.round(minFontSize + ((comicCount - minCount) / divisor) *
(maxFontSize - minFontSize))` with `minFontSize = 12`, `maxFontSize = 32`. -/
theorem getTagCloud_fontSize_spec (minCount : Int) (t0 : TagInfo)
    (rest : List TagInfo) (hmin : 1 ≤ minCount)
    (hfloor : ∀ t ∈ t0 :: rest, minCount ≤ t.comicCount)
    (hhead : ∀ t ∈ t0 :: rest, t.comicCount ≤ t0.comicCount) :
    tagCloudMaxCount (t0 :: rest) = t0.comicCount
    ∧ (∀ t ∈ t0 :: rest, t.comicCount ≤ tagCloudMaxCount (t0 :: rest))
    ∧ tagCloudMaxCount (t0 :: rest) ∈ (t0 :: rest).map TagInfo.comicCount
    ∧ 0 < tagDivisor t0.comicCount minCount
    ∧ tagDivisor t0.comicCount minCount = max (t0.comicCount - minCount) 1
    ∧ ∀ e ∈ getTagCloud minCount (t0 :: rest),
        e.2 = jsRound (12 + (((e.1.comicCount : ℚ) - (minCount : ℚ)) /
          ((max (t0.comicCount - minCount) 1 : Int) : ℚ)) * (32 - 12)) := by
  have h0 : t0.comicCount ≠ 0 := by
    have := hfloor t0 (by simp)
    omega
  have hmax : tagCloudMaxCount (t0 :: rest) = t0.comicCount := by
    simp [tagCloudMaxCount, h0]
  refine ⟨hmax, ?_, ?_, ?_, tagDivisor_eq_max _ _, ?_⟩
  · intro t ht
    rw [hmax]
    exact hhead t ht
  · rw [hmax]
    simp
  · rw [tagDivisor_eq_max]
    omega
  · intro e he
    simp only [getTagCloud, List.mem_map] at he
    obtain ⟨t, _, rfl⟩ := he
    simp only [hmax]
    rw [tagFontSize, tagDivisor_eq_max]

theorem getTagCloud_fontSize_spec_witness :
    (1 : Int) ≤ 1
    ∧ tagCloudMaxCount
        [{ name := "a", comicCount := 4 }, { name := "b", comicCount := 2 }] = 4 :=
  ⟨by decide,
   (getTagCloud_fontSize_spec 1 { name := "a", comicCount := 4 }
     [{ name := "b", comicCount := 2 }] (by decide) (by decide) (by decide)).1⟩

/-- C8: for fixed `minCount` and `maxCount`, the tag-cloud font size is
monotonically non-decreasing in `comicCount`. -/
theorem tagFontSize_monotone (minCount maxCount c₁ c₂ : Int) (h : c₁ ≤ c₂) :
    tagFontSize minCount maxCount c₁ ≤ tagFontSize minCount maxCount c₂ := by
  unfold tagFontSize jsRound
  apply Int.floor_le_floor
  have hdiv : (0 : ℚ) < ((tagDivisor maxCount minCount : Int) : ℚ) := by
    rw [tagDivisor_eq_max]
    have : (1 : Int) ≤ max (maxCount - minCount) 1 := le_max_right _ _
    exact_mod_cast lt_of_lt_of_le Int.zero_lt_one this
  have hc : ((c₁ : ℚ) - (minCount : ℚ)) ≤ ((c₂ : ℚ) - (minCount : ℚ)) := by
    have : (c₁ : ℚ) ≤ (c₂ : ℚ) := by exact_mod_cast h
    linarith
  have hmul :
      ((c₁ : ℚ) - (minCount : ℚ)) / ((tagDivisor maxCount minCount : Int) : ℚ) * (32 - 12) ≤
      ((c₂ : ℚ) - (minCount : ℚ)) / ((tagDivisor maxCount minCount : Int) : ℚ) * (32 - 12) := by
    have hdivle := (div_le_div_iff_of_pos_right hdiv).mpr hc
    have : (0 : ℚ) ≤ 32 - 12 := by norm_num
    exact mul_le_mul_of_nonneg_right hdivle this
  linarith

theorem tagFontSize_monotone_witness :
    (2 : Int) ≤ 3 ∧ tagFontSize 1 4 2 ≤ tagFontSize 1 4 3 :=
  ⟨by decide, tagFontSize_monotone 1 4 2 3 (by decide)⟩

/-- C6: the slug returned by `generateUniqueSlug` is the first free
candidate in the probe order `base`, `base-1`, `base-2`, … (every earlier
candidate collides with the store), it is itself absent from the store, and
consequently a subsequent call against the store extended with it can never
produce the same slug again, whatever the colliding title. -/
theorem generateUniqueSlug_spec (store : List String) (title : String) :
    generateUniqueSlug store title ∉ store
    ∧ (∃ k, generateUniqueSlug store title = slugCand (slugify title) k
        ∧ ∀ j, j < k → slugCand (slugify title) j ∈ store)
    ∧ ∀ title2 : String,
        generateUniqueSlug (generateUniqueSlug store title :: store) title2 ≠
          generateUniqueSlug store title := by
  have h1 : generateUniqueSlug store title ∉ store :=
    Nat.find_spec (exists_free_slugCand store (slugify title))
  refine ⟨h1, ⟨Nat.find (exists_free_slugCand store (slugify title)), rfl, ?_⟩, ?_⟩
  · intro j hj
    have := Nat.find_min (exists_free_slugCand store (slugify title)) hj
    simpa using this
  · intro title2 heq
    have h2 : generateUniqueSlug (generateUniqueSlug store title :: store) title2 ∉
        generateUniqueSlug store title :: store :=
      Nat.find_spec (exists_free_slugCand (generateUniqueSlug store title :: store)
        (slugify title2))
    exact h2 (by rw [heq]; exact List.mem_cons_self _ _)

theorem generateUniqueSlug_spec_witness :
    generateUniqueSlug ["hello-world", "hello-world-1"] "Hello World" ∉
      ["hello-world", "hello-world-1"] :=
  (generateUniqueSlug_spec ["hello-world", "hello-world-1"] "Hello World").1

/-- C9: the auth layer locks out after 5 consecutive failed password
checks: from a fresh account, failures 1–4 only count up (no lock) and the
5th sets a lock for exactly 15 minutes; while locked, login fails with the
forbidden error before the password is checked and leaves the state
untouched; a successful login resets the counter and clears the lock; and
a lock that has expired is cleared (counter reset to zero) by the next
failed attempt instead of accumulating further. -/
theorem login_lockout_spec (now t : Int) (s : AuthState) (pw ev : Bool) :
    (isLocked now s = true → login now s pw ev = (.lockedOut, s))
    ∧ (isLocked now s = false → pw = true → ev = true →
        login now s pw ev = (.success, { loginAttempts := 0, lockUntil := none }))
    ∧ (s.lockUntil = some t → t < now →
        login now s false ev =
          (.invalidCredentials, { loginAttempts := 0, lockUntil := none }))
    ∧ (∀ k, k ≤ 4 →
        failStreak now k = { loginAttempts := (k : Int), lockUntil := none })
    ∧ failStreak now 5 =
        { loginAttempts := 5, lockUntil := some (now + 15 * 60 * 1000) }
    ∧ (∀ t2, isLocked t2 (failStreak now 5) = true ↔ t2 < now + 15 * 60 * 1000) := by
  refine ⟨?_, ?_, ?_, ?_, ?_, ?_⟩
  · intro h
    unfold login
    rw [h]
    rfl
  · intro h hpw hev
    unfold login
    rw [h, hpw, hev]
    rfl
  · intro hl ht
    have hnl : isLocked now s = false := by
      unfold isLocked
      rw [hl]
      simp
      omega
    unfold login
    rw [hnl]
    simp only [Bool.not_false, if_true, Bool.false_eq_true, not_false_eq_true]
    unfold incrementLoginAttempts
    rw [hl]
    simp [ht, resetLoginAttempts]
  · intro k hk
    interval_cases k <;> rfl
  · rfl
  · intro t2
    rw [show failStreak now 5 =
      { loginAttempts := 5, lockUntil := some (now + 15 * 60 * 1000) } from rfl]
    unfold isLocked
    simp

theorem login_lockout_spec_witness :
    login 0 { loginAttempts := 0, lockUntil := some 10 } true true =
      (.lockedOut, { loginAttempts := 0, lockUntil := some 10 })
    ∧ login 100 { loginAttempts := 3, lockUntil := some 50 } false true =
      (.invalidCredentials, { loginAttempts := 0, lockUntil := none })
    ∧ failStreak 0 5 = { loginAttempts := 5, lockUntil := some 900000 } :=
  ⟨(login_lockout_spec 0 0 { loginAttempts := 0, lockUntil := some 10 }
      true true).1 (by decide),
   (login_lockout_spec 100 50 { loginAttempts := 3, lockUntil := some 50 }
      false true).2.2.1 rfl (by decide),
   (login_lockout_spec 0 0 { loginAttempts := 0, lockUntil := none }
      true true).2.2.2.2.1⟩

/-- C5 (failing input): create a comic referencing tag `"t"` (the counter
becomes 1), then call `incrementViews` on it — a plain `save()`.  The
`post('save')` hook fires again and the stored `Tag.comicCount` becomes 2,
while exactly one non-deleted comic references the tag; the hook is not
fired "exactly on creation", so the claimed invariant breaks outside any
bulk-update path. -/
theorem tag_comicCount_drifts_on_save :
    tagCountOf "t"
        (incrementViews 1 (createComic
          { id := 1, genres := [], tags := ["t"], views := 0, deleted := false }
          { comics := [], genreCounts := [], tagCounts := [("t", 0)] })) = some 2
    ∧ referencingTagCount "t"
        (incrementViews 1 (createComic
          { id := 1, genres := [], tags := ["t"], views := 0, deleted := false }
          { comics := [], genreCounts := [], tagCounts := [("t", 0)] })) = 1 := by
  constructor <;> rfl

/-- C10: the analytics overview endpoint rejects any requested window of
more than 365 days with the validation (400) error before computing any
statistics, accepts windows of at most 365 days, and defaults the window to
30 days when the `days` query parameter is absent. -/
theorem getOverviewWindow_spec (d : Int) :
    (d > 365 →
      getOverviewWindow (some d) = .error "Date range cannot exceed 365 days")
    ∧ (d ≤ 365 → getOverviewWindow (some d) = .ok d)
    ∧ getOverviewWindow none = .ok 30 := by
  refine ⟨fun h => ?_, fun h => ?_, rfl⟩
  · unfold getOverviewWindow
    simp [h]
  · unfold getOverviewWindow
    simp only [Option.getD_some]
    rw [if_neg (by omega)]

theorem getOverviewWindow_spec_witness :
    getOverviewWindow (some 400) = .error "Date range cannot exceed 365 days"
    ∧ getOverviewWindow (some 30) = .ok 30
    ∧ getOverviewWindow none = .ok 30 :=
  ⟨(getOverviewWindow_spec 400).1 (by decide),
   (getOverviewWindow_spec 30).2.1 (by decide),
   (getOverviewWindow_spec 0).2.2⟩

end RoyalBird
